import Mathlib

/-!
Verification development for the trigger-proxy service (`src/app.go`).

The Go program is shallowly embedded: its package-level configuration
variables become a `Config` record, the outbound HTTP call is modelled by
passing the transport as a function from the constructed request to an
optional status code (`none` models a transport error), the mapping file is
a list of CSV records already split at the semicolons, and the per-job
debounce timers become an explicit state machine over natural-number time.
Go runtime panics (out-of-range slice indexing) are a dedicated outcome
constructor, distinct from returned error values.
-/

namespace TriggerProxy

/-- Package-level configuration variables of `src/app.go` lines 24-30.
Go zero values: empty strings, `0`, `false`. -/
structure Config where
  JenkinsURL : String
  JenkinsUser : String
  JenkinsToken : String
  JenkinsMulti : String
  MappingFile : String
  QuietPeriod : Nat
  FileMatching : Bool
deriving DecidableEq

/-- Zero values of the configuration variables: `parseFlags` (line 180) is
never invoked by `main`, so the globals keep these values when `run` starts. -/
def zeroConfig : Config :=
  Config.mk "" "" "" "" "" 0 false

/-- Default values `parseFlags` would install if it ever ran (lines 181-189);
it is dead code, kept here for fidelity to the source. -/
def parseFlagsDefaults : Config :=
  Config.mk "" "" "" "" "mapping.csv" 10 false

/-- An outbound HTTP request as constructed by `http.NewRequest` plus
`SetBasicAuth`: method, URL, and the optional basic-auth credentials. -/
structure Request where
  method : String
  url : String
  basicAuth : Option (String × String)
deriving DecidableEq

/-- Mirror of `createJobURL` (lines 76-78): appends `/job/{job}/build` to the
Jenkins base URL. -/
def createJobURL (jenkinsURL job : String) : String :=
  jenkinsURL ++ "/job/" ++ job ++ "/build"

/-- What one call of `triggerJob` produces: the request actually handed to
`client.Do`, the final value of the local `url` variable, the returned
boolean, and the log lines emitted after the response. -/
structure TriggerResult where
  request : Request
  urlVar : String
  success : Bool
  logs : List String
deriving DecidableEq

/-- Mirror of `triggerJob` (lines 37-74). The request is created at line 40
from the URL as it stands then; line 50 reassigns only the local `url`
variable, after the request object has already been built, so the request
`client.Do` sends is unchanged by it. `doReq` models `client.Do`: `none` is a
transport error, `some s` a response with status code `s`. `http.NewRequest`
cannot fail for the method `POST` and these URLs, so that branch is omitted.
Lines 67-73: a non-2xx status is logged as failed, and the function then
falls through to `return true`. -/
def triggerJob (c : Config) (job : String) (doReq : Request → Option Nat) :
    TriggerResult :=
  let url := createJobURL c.JenkinsURL job
  let req : Request := Request.mk "POST" url none
  let sent : Request × String :=
    if c.JenkinsUser ≠ "" then
      (Request.mk req.method req.url (some (c.JenkinsUser, c.JenkinsToken)), url)
    else
      (req, url ++ "?token=" ++ c.JenkinsToken)
  match doReq sent.1 with
  | none => TriggerResult.mk sent.1 sent.2 false ["Error: transport"]
  | some status =>
      if 200 ≤ status ∧ status ≤ 299 then
        TriggerResult.mk sent.1 sent.2 true ["... " ++ job ++ " triggered"]
      else
        TriggerResult.mk sent.1 sent.2 true
          ["... " ++ job ++ " failed with status code " ++ toString status]

/-- Mirror of `BuildMappingKey` (lines 288-290), i.e. `strings.Join(keys, "|")`:
the empty string for no parts, the sole part alone, and otherwise the parts
separated by single pipes. -/
def BuildMappingKey : List String → String
  | [] => ""
  | [k] => k
  | k :: ks => k ++ "|" ++ BuildMappingKey ks

/-- The `triggerMapping` struct (lines 33-35): a Go `map[string][]string`,
embedded as an association list (the construction below keeps keys unique). -/
structure triggerMapping where
  mapping : List (String × List String)
deriving DecidableEq

/-- What one call of `ParseMappingFile` can do: return a mapping, return an
error value, or abort the whole process with a Go runtime panic (out-of-range
slice indexing is not an error value in Go). -/
inductive ParseOutcome where
  | ok (tm : triggerMapping)
  | err (msg : String)
  | panicked (msg : String)
deriving DecidableEq

/-- Mirror of `m[key] = append(m[key], v)` on a Go map: extend the list held
under `key`, creating the entry when absent. -/
def mapAppend (m : List (String × List String)) (k v : String) :
    List (String × List String) :=
  match m with
  | [] => [(k, [v])]
  | p :: rest =>
      if p.1 = k then (p.1, p.2 ++ [v]) :: rest else p :: mapAppend rest k v

/-- Go map read `mapping[key]`: the stored list, or the empty list (nil
slice) when the key is absent. -/
def lookupMapping (m : List (String × List String)) (key : String) :
    List String :=
  match m.find? (fun p => p.1 == key) with
  | some p => p.2
  | none => []

/-- The read loop of `ParseMappingFile` (lines 260-280) over records already
split at the semicolons. `fieldsPer` models `csv.Reader.FieldsPerRecord`
(default `0`): it is fixed to the first record's field count, and a later
record with a different count makes `reader.Read` return an error which the
loop propagates (line 266). In file-matching mode a record without exactly 4
fields is the error of line 272. Otherwise the key is built from fields 0
and 1 and field 2 is appended under it (line 278); a record with fewer than
2 fields makes the key construction `record[1]` panic, and one with fewer
than 3 makes `record[2]` panic. -/
def parseLoop (filematch : Bool) (fieldsPer : Option Nat)
    (m : List (String × List String)) : List (List String) → ParseOutcome
  | [] => ParseOutcome.ok (triggerMapping.mk m)
  | record :: rest =>
      let n := fieldsPer.getD record.length
      if record.length ≠ n then
        ParseOutcome.err "wrong number of fields"
      else if filematch then
        if record.length ≠ 4 then
          ParseOutcome.err "no file matching information provided in mapping file"
        else
          let key := BuildMappingKey
            [record.getD 0 "", record.getD 1 "", record.getD 3 ""]
          parseLoop filematch (some n) (mapAppend m key (record.getD 2 "")) rest
      else
        if record.length < 2 then
          ParseOutcome.panicked "index out of range"
        else
          let key := BuildMappingKey [record.getD 0 "", record.getD 1 ""]
          if record.length < 3 then
            ParseOutcome.panicked "index out of range"
          else
            parseLoop filematch (some n) (mapAppend m key (record.getD 2 "")) rest

/-- Mirror of `ParseMappingFile` (lines 254-285): run the read loop on an
empty map with the reader's field count not yet fixed. -/
def ParseMappingFile (records : List (List String)) (filematch : Bool) :
    ParseOutcome :=
  parseLoop filematch none [] records

/-- What one call of `ProcessMappingFile` can do: panic, or return an error
value (`none` models Go's nil error) while installing — or not — a table
into the global `mapping`. -/
inductive ProcOutcome where
  | panicked (msg : String)
  | returned (errValue : Option String) (installed : Option (List (String × List String)))
deriving DecidableEq

/-- Mirror of `ProcessMappingFile` (lines 233-251). `fs` models the file
system: the records of the file at a path, or `none` when `os.Open` fails.
After a successful open the local variable `err` is nil, and line 246
(`if perr != nil { return err }`) returns that nil `err`, not `perr`: a
parse failure therefore yields a nil returned error and leaves the global
`mapping` unassigned (`returned none none` below). -/
def ProcessMappingFile (fs : String → Option (List (List String)))
    (filematching : Bool) (mappingfile : String) : ProcOutcome :=
  match fs mappingfile with
  | none =>
      ProcOutcome.returned (some ("open " ++ mappingfile ++ ": no such file or directory")) none
  | some records =>
      match ParseMappingFile records filematching with
      | ParseOutcome.panicked msg => ProcOutcome.panicked msg
      | ParseOutcome.err _ => ProcOutcome.returned none none
      | ParseOutcome.ok tm => ProcOutcome.returned none (some tm.mapping)

/-- How `run` ends: an error returned to `main` (which exits non-zero), a
panic, or reaching `http.ListenAndServe` on port 8080 with the given project
URL and the global `mapping` as it then stands. -/
inductive RunOutcome where
  | fail (msg : String)
  | panicked (msg : String)
  | serve (port : Nat) (projectURL : String) (mapping : List (String × List String))
deriving DecidableEq

/-- Mirror of `run` (lines 192-230): error out on an empty `JenkinsURL` or
`JenkinsToken`, extend the URL for a multibranch project, process the
mapping file, then serve on port 8080. The global `mapping` starts as the
empty map (line 21), so when `ProcessMappingFile` installs nothing the
served table is empty. -/
def run (c : Config) (fs : String → Option (List (List String))) : RunOutcome :=
  if c.JenkinsURL = "" then RunOutcome.fail "No JENKINS_URL defined"
  else if c.JenkinsToken = "" then RunOutcome.fail "No JENKINS_TOKEN defined"
  else
    let jurl :=
      if c.JenkinsMulti ≠ "" then c.JenkinsURL ++ "/job/" ++ c.JenkinsMulti
      else c.JenkinsURL
    match ProcessMappingFile fs c.FileMatching c.MappingFile with
    | ProcOutcome.panicked msg => RunOutcome.panicked msg
    | ProcOutcome.returned (some e) _ => RunOutcome.fail e
    | ProcOutcome.returned none installed =>
        RunOutcome.serve 8080 jurl (installed.getD [])

/-- Mirror of `main` (lines 173-178): it calls `run` directly, never
`parseFlags`, so the configuration globals still hold their zero values;
the argument vector is passed to `run` but never read. -/
def mainRun (args : List String) (fs : String → Option (List (List String))) :
    RunOutcome :=
  let _ := args
  run zeroConfig fs

/-- Exit code of the process: `log.Fatalf` exits non-zero when `run` returns
an error, and `main` returns normally (exit 0) otherwise. -/
def mainExitCode (args : List String)
    (fs : String → Option (List (List String))) : Nat :=
  match mainRun args fs with
  | RunOutcome.fail _ => 1
  | _ => 0

/-- One `*time.Timer` created by `time.AfterFunc` (line 89): an identity, the
job its callback closes over, the time it is scheduled to fire, and whether
`Stop` has been called on it. The closure captures only the job name — it
does not reference the `timer` variable, so the cleanup at lines 92-95
cannot compare timer handles. -/
structure GoTimer where
  id : Nat
  job : String
  fireAt : Nat
  stopped : Bool
deriving DecidableEq

/-- The mutable state the timer code touches: a counter handing out timer
identities, every timer created so far, the global `timeKeeper` map (job name
to the id of the stored timer handle, line 22), and the dispatches performed
so far as (job, time) pairs, most recent first. -/
structure TPState where
  nextId : Nat
  timers : List GoTimer
  timeKeeper : List (String × Nat)
  fired : List (String × Nat)
deriving DecidableEq

/-- The state at process start: no timers, empty `timeKeeper`, nothing fired. -/
def initState : TPState :=
  TPState.mk 0 [] [] []

/-- Go map read `timeKeeper[job]`: the id of the stored timer handle, if any. -/
def lookupTK (s : TPState) (job : String) : Option Nat :=
  match s.timeKeeper.find? (fun p => p.1 == job) with
  | some p => some p.2
  | none => none

/-- Mirror of `timeKeeper[job].Stop()`: mark the timer with that id stopped. -/
def stopTimer (s : TPState) (tid : Nat) : TPState :=
  TPState.mk s.nextId
    (s.timers.map (fun t => if t.id = tid then GoTimer.mk t.id t.job t.fireAt true else t))
    s.timeKeeper s.fired

/-- Mirror of `delete(timeKeeper, job)`. -/
def deleteTK (s : TPState) (job : String) : TPState :=
  TPState.mk s.nextId s.timers (s.timeKeeper.filter (fun p => p.1 != job)) s.fired

/-- Mirror of `createTimer` (lines 80-104) called at time `now` with quiet
period `q`: if an entry exists for the job, stop the stored timer and delete
the entry; then create a fresh timer due at `now + q` and store it under the
job name. -/
def createTimer (q now : Nat) (job : String) (s : TPState) : TPState :=
  let s1 :=
    match lookupTK s job with
    | some tid => deleteTK (stopTimer s tid) job
    | none => s
  let t := GoTimer.mk s1.nextId job (now + q) false
  TPState.mk (s1.nextId + 1) (t :: s1.timers) ((job, t.id) :: s1.timeKeeper) s1.fired

/-- Mirror of the expiry callback (lines 89-96) of timer `t`, executing at
time `now`: dispatch the job (`triggerJob(job)`), then delete the
`timeKeeper` entry for the job if one is present. The presence check is the
only guard: the callback never compares the stored handle with its own
timer, so it removes whatever entry is there. -/
def expiryCallback (t : GoTimer) (now : Nat) (s : TPState) : TPState :=
  let s1 := TPState.mk s.nextId s.timers s.timeKeeper ((t.job, now) :: s.fired)
  match lookupTK s1 t.job with
  | some _ => deleteTK s1 t.job
  | none => s1

/-- The timer handle currently stored for a job, resolved to the timer it
identifies. -/
def pendingOf (s : TPState) (job : String) : Option GoTimer :=
  match lookupTK s job with
  | some tid => s.timers.find? (fun t => t.id == tid)
  | none => none

/-- Sequential (race-free) execution of a list of `createTimer` calls for one
job at nondecreasing times, with quiet period `q`: before each arm, the
pending timer fires at its scheduled time if that time has already passed
(running the expiry callback); after the last arm the pending timer matures.
A timer stopped before its scheduled time never fires, exactly as
`time.Timer.Stop` guarantees in the absence of the expiry race. -/
def runArmsFrom (q : Nat) (job : String) : List Nat → TPState → TPState
  | [], s =>
      match pendingOf s job with
      | some t => expiryCallback t t.fireAt s
      | none => s
  | a :: rest, s =>
      let s1 :=
        match pendingOf s job with
        | some t => if t.fireAt ≤ a then expiryCallback t t.fireAt s else s
        | none => s
      runArmsFrom q job rest (createTimer q a job s1)

/-- A string free of the key separator. -/
def pipeFree (s : String) : Prop :=
  '|' ∉ s.data

instance (s : String) : Decidable (pipeFree s) := by
  unfold pipeFree
  infer_instance

/-- Modelled from the spec: the list the claim says a lookup must return —
"the job names (third field) of the rows whose first two fields equal that
pair, in the order those rows appear in the source, with duplicates
preserved". Written from the spec's words, to be compared with the table
the source builds. -/
def specLookup (r b : String) : List (List String) → List String
  | [] => []
  | record :: rest =>
      if record.getD 0 "" = r ∧ record.getD 1 "" = b then
        record.getD 2 "" :: specLookup r b rest
      else specLookup r b rest

/-- The jobs the parse loop files under a given key, in record order. -/
def keyJobs (key : String) : List (List String) → List String
  | [] => []
  | record :: rest =>
      if BuildMappingKey [record.getD 0 "", record.getD 1 ""] = key then
        record.getD 2 "" :: keyJobs key rest
      else keyJobs key rest

/-! Helper lemmas -/

lemma sep_append_inj (a : List Char) : ∀ (b x y : List Char), '|' ∉ a → '|' ∉ b →
    a ++ '|' :: x = b ++ '|' :: y → a = b ∧ x = y := by
  induction a with
  | nil =>
    intro b x y _ hb h
    cases b with
    | nil => simpa using h
    | cons d bs =>
      simp only [List.nil_append, List.cons_append, List.cons.injEq] at h
      exact absurd (h.1 ▸ List.mem_cons_self d bs) hb
  | cons c as ih =>
    intro b x y ha hb h
    cases b with
    | nil =>
      simp only [List.nil_append, List.cons_append, List.cons.injEq] at h
      exact absurd (h.1 ▸ List.mem_cons_self c as) ha
    | cons d bs =>
      simp only [List.cons_append, List.cons.injEq] at h
      have ha' : '|' ∉ as := fun hm => ha (List.mem_cons_of_mem c hm)
      have hb' : '|' ∉ bs := fun hm => hb (List.mem_cons_of_mem d hm)
      have := ih bs x y ha' hb' h.2
      exact ⟨by rw [h.1, this.1], this.2⟩

lemma buildKey_data (k : String) (ks : List String) (h : ks ≠ []) :
    (BuildMappingKey (k :: ks)).data = k.data ++ '|' :: (BuildMappingKey ks).data := by
  cases ks with
  | nil => exact absurd rfl h
  | cons k2 rest =>
    show (k ++ "|" ++ BuildMappingKey (k2 :: rest)).data = _
    rw [String.data_append, String.data_append, List.append_assoc]
    rfl

lemma data_injective (x y : String) (h : x.data = y.data) : x = y :=
  String.ext h

lemma buildKey_inj (xs : List String) : ∀ (ys : List String), xs.length = ys.length →
    (∀ s ∈ xs, pipeFree s) → (∀ s ∈ ys, pipeFree s) →
    BuildMappingKey xs = BuildMappingKey ys → xs = ys := by
  induction xs with
  | nil =>
    intro ys hlen _ _ _
    cases ys with
    | nil => rfl
    | cons y ys' => simp at hlen
  | cons x xs' ih =>
    intro ys hlen hx hy h
    cases ys with
    | nil => simp at hlen
    | cons y ys' =>
      cases xs' with
      | nil =>
        cases ys' with
        | nil => simpa [BuildMappingKey] using h
        | cons _ _ => simp at hlen
      | cons x2 rest =>
        cases ys' with
        | nil => simp at hlen
        | cons y2 rest2 =>
          have hxd : (BuildMappingKey (x :: x2 :: rest)).data
              = x.data ++ '|' :: (BuildMappingKey (x2 :: rest)).data :=
            buildKey_data x (x2 :: rest) (by simp)
          have hyd : (BuildMappingKey (y :: y2 :: rest2)).data
              = y.data ++ '|' :: (BuildMappingKey (y2 :: rest2)).data :=
            buildKey_data y (y2 :: rest2) (by simp)
          have hdata : x.data ++ '|' :: (BuildMappingKey (x2 :: rest)).data
              = y.data ++ '|' :: (BuildMappingKey (y2 :: rest2)).data := by
            rw [← hxd, ← hyd, h]
          have hpx : '|' ∉ x.data := hx x (List.mem_cons_self x _)
          have hpy : '|' ∉ y.data := hy y (List.mem_cons_self y _)
          have hsplit := sep_append_inj x.data y.data
            (BuildMappingKey (x2 :: rest)).data (BuildMappingKey (y2 :: rest2)).data
            hpx hpy hdata
          have hxy : x = y := data_injective x y hsplit.1
          have htail : BuildMappingKey (x2 :: rest) = BuildMappingKey (y2 :: rest2) :=
            data_injective _ _ hsplit.2
          have hlen' : (x2 :: rest).length = (y2 :: rest2).length := by
            simpa using hlen
          have hx' : ∀ s ∈ x2 :: rest, pipeFree s :=
            fun s hs => hx s (List.mem_cons_of_mem x hs)
          have hy' : ∀ s ∈ y2 :: rest2, pipeFree s :=
            fun s hs => hy s (List.mem_cons_of_mem y hs)
          rw [hxy, ih (y2 :: rest2) hlen' hx' hy' htail]

lemma buildKey_pair_eq (a b c d : String) (ha : pipeFree a) (hb : pipeFree b)
    (hc : pipeFree c) (hd : pipeFree d) :
    BuildMappingKey [a, b] = BuildMappingKey [c, d] ↔ (a = c ∧ b = d) := by
  constructor
  · intro h
    have := buildKey_inj [a, b] [c, d] rfl
      (by intro s hs; simp only [List.mem_cons, List.not_mem_nil, or_false] at hs
          rcases hs with rfl | rfl
          exacts [ha, hb])
      (by intro s hs; simp only [List.mem_cons, List.not_mem_nil, or_false] at hs
          rcases hs with rfl | rfl
          exacts [hc, hd])
      h
    simpa using this
  · rintro ⟨rfl, rfl⟩
    rfl

lemma lookupMapping_mapAppend (m : List (String × List String)) (k v key : String) :
    lookupMapping (mapAppend m k v) key =
      if key = k then lookupMapping m key ++ [v] else lookupMapping m key := by
  induction m with
  | nil =>
    by_cases h : key = k
    · subst h
      simp [mapAppend, lookupMapping, List.find?]
    · have hk : (k == key) = false := by
        rw [beq_eq_false_iff_ne]
        exact Ne.symm h
      simp [mapAppend, lookupMapping, List.find?, hk, h]
  | cons p rest ih =>
    by_cases hpk : p.1 = k
    · by_cases hkey : key = k
      · subst hkey
        simp [mapAppend, lookupMapping, List.find?, hpk]
      · have hk : (k == key) = false := by
          rw [beq_eq_false_iff_ne]
          exact Ne.symm hkey
        simp [mapAppend, lookupMapping, List.find?, hpk, hkey, hk]
    · by_cases hpkey : p.1 = key
      · have hkeyk : ¬ (key = k) := fun hc => hpk (hpkey.trans hc)
        simp [mapAppend, lookupMapping, List.find?, hpk, hpkey, hkeyk]
      · have hp : (p.1 == key) = false := by
          rw [beq_eq_false_iff_ne]
          exact hpkey
        simp only [mapAppend, if_neg hpk]
        simp only [lookupMapping, List.find?, hp]
        exact ih


lemma parseLoop_lookup (records : List (List String)) :
    ∀ (fp : Option Nat) (m : List (String × List String)) (tm : triggerMapping)
      (key : String),
    parseLoop false fp m records = ParseOutcome.ok tm →
    lookupMapping tm.mapping key = lookupMapping m key ++ keyJobs key records := by
  induction records with
  | nil =>
    intro fp m tm key h
    simp only [parseLoop, ParseOutcome.ok.injEq] at h
    rw [← h]
    simp [keyJobs]
  | cons record rest ih =>
    intro fp m tm key h
    simp only [parseLoop, Bool.false_eq_true, if_false] at h
    split at h
    · simp at h
    · split at h
      · simp at h
      · split at h
        · simp at h
        · have hrec := ih (some (fp.getD record.length))
            (mapAppend m (BuildMappingKey [record.getD 0 "", record.getD 1 ""])
              (record.getD 2 "")) tm key h
          rw [hrec, lookupMapping_mapAppend]
          simp only [keyJobs]
          by_cases hk : BuildMappingKey [record.getD 0 "", record.getD 1 ""] = key
          · rw [if_pos hk, if_pos hk.symm]
            simp
          · rw [if_neg hk, if_neg (fun hc => hk hc.symm)]

lemma keyJobs_eq_specLookup (r b : String) (records : List (List String))
    (hrecs : ∀ rec ∈ records, pipeFree (rec.getD 0 "") ∧ pipeFree (rec.getD 1 ""))
    (hr : pipeFree r) (hb : pipeFree b) :
    keyJobs (BuildMappingKey [r, b]) records = specLookup r b records := by
  induction records with
  | nil => rfl
  | cons record rest ih =>
    have hhead := hrecs record (List.mem_cons_self record rest)
    have hrest : ∀ rec ∈ rest, pipeFree (rec.getD 0 "") ∧ pipeFree (rec.getD 1 "") :=
      fun rec hm => hrecs rec (List.mem_cons_of_mem record hm)
    have hcond : (BuildMappingKey [record.getD 0 "", record.getD 1 ""]
        = BuildMappingKey [r, b]) ↔ (record.getD 0 "" = r ∧ record.getD 1 "" = b) :=
      buildKey_pair_eq _ _ r b hhead.1 hhead.2 hr hb
    simp only [keyJobs, specLookup]
    by_cases hc : record.getD 0 "" = r ∧ record.getD 1 "" = b
    · rw [if_pos (hcond.mpr hc), if_pos hc, ih hrest]
    · rw [if_neg (fun hx => hc (hcond.mp hx)), if_neg hc, ih hrest]

lemma parseLoop_filematch_err (records : List (List String)) :
    ∀ (fp : Option Nat) (m : List (String × List String)),
    (∃ rec ∈ records, rec.length ≠ 4) →
    ∃ msg, parseLoop true fp m records = ParseOutcome.err msg := by
  induction records with
  | nil =>
    intro fp m h
    simp at h
  | cons record rest ih =>
    intro fp m h
    by_cases h1 : record.length ≠ fp.getD record.length
    · exact ⟨"wrong number of fields", by simp [parseLoop, if_pos h1]⟩
    · by_cases h2 : record.length ≠ 4
      · refine ⟨"no file matching information provided in mapping file", ?_⟩
        simp only [parseLoop, if_neg h1]
        simp [h2]
      · have hrest : ∃ rec ∈ rest, rec.length ≠ 4 := by
          rcases h with ⟨rec, hm, hne⟩
          rcases List.mem_cons.mp hm with rfl | hm'
          · exact absurd hne h2
          · exact ⟨rec, hm', hne⟩
        rcases ih (some (fp.getD record.length)) (mapAppend m
          (BuildMappingKey [record.getD 0 "", record.getD 1 "", record.getD 3 ""])
          (record.getD 2 "")) hrest with ⟨msg, hmsg⟩
        refine ⟨msg, ?_⟩
        simp only [parseLoop, if_neg h1]
        simp only [if_true]
        rw [if_neg h2]
        exact hmsg

lemma find?_filter_ne (l : List (String × Nat)) (job : String) :
    (l.filter (fun p => p.1 != job)).find? (fun p => p.1 == job) = none := by
  induction l with
  | nil => rfl
  | cons p rest ih =>
    by_cases hp : p.1 = job
    · have : (p.1 != job) = false := by
        simp [hp]
      simp only [List.filter, this]
      exact ih
    · have h1 : (p.1 != job) = true := by
        simp [hp]
      have h2 : (p.1 == job) = false := by
        rw [beq_eq_false_iff_ne]
        exact hp
      simp only [List.filter, h1, List.find?, h2]
      exact ih

lemma lookupTK_deleteTK (s : TPState) (job : String) :
    lookupTK (deleteTK s job) job = none := by
  simp only [lookupTK, deleteTK, find?_filter_ne]

/-! Concrete inputs used by the claim theorems -/

/-- A configuration with a Jenkins URL and token but no username, as the
anonymous-trigger token mode requires. -/
def cfgAnon : Config :=
  Config.mk "http://jks" "" "tok" "" "mapping.csv" 10 false

/-- Records of a mapping file whose second row has 2 fields while the first
has 3: `csv.Reader` (FieldsPerRecord fixed by the first record) reports an
error on the second row, so `ParseMappingFile` returns an error. -/
def badRecords : List (List String) :=
  [["a", "b", "c"], ["d", "e"]]

/-- A file system holding `badRecords` at the default mapping path. -/
def fsBad : String → Option (List (List String)) :=
  fun p => if p = "mapping.csv" then some badRecords else none

/-! The claims -/

/-- C1: the claim says a malformed mapping file (ParseMappingFile error) makes
ProcessMappingFile return a non-nil error and startup exit non-zero with no
table installed. The code contradicts this: line 246 returns the open error
`err` — nil at that point — instead of the parse error `perr`, so
ProcessMappingFile returns nil, no table is installed, and `run` proceeds all
the way to serving on port 8080 with the initial empty table. This theorem
evaluates the code at the failing input: the parse fails, yet the returned
error is nil (`returned none none`) and `run` serves. -/
theorem C1_parse_error_not_fatal :
    ParseMappingFile badRecords false = ParseOutcome.err "wrong number of fields" ∧
    ProcessMappingFile fsBad false "mapping.csv" = ProcOutcome.returned none none ∧
    run (Config.mk "http://jks" "" "t" "" "mapping.csv" 10 false) fsBad
      = RunOutcome.serve 8080 "http://jks" [] := by
  refine ⟨rfl, rfl, ?_⟩
  rfl

/-- C2: the claim says that with no username configured the outbound POST has
`?token=...` appended to its URL. The code appends the token to the local
`url` variable at line 50, after `http.NewRequest` already built the request
at line 40, so the request `client.Do` sends carries neither the token query
parameter nor basic-auth headers. This theorem evaluates the code at the
failing input: the sent request lacks the token while the dead local variable
holds the tokened URL; with a username configured, basic auth is used and the
URL is bare, as the claim says for that half. -/
theorem C2_token_never_sent :
    (triggerJob cfgAnon "myjob" (fun _ => some 200)).request
      = Request.mk "POST" "http://jks/job/myjob/build" none ∧
    (triggerJob cfgAnon "myjob" (fun _ => some 200)).urlVar
      = "http://jks/job/myjob/build?token=tok" ∧
    (triggerJob (Config.mk "http://jks" "u" "tok" "" "mapping.csv" 10 false)
        "myjob" (fun _ => some 200)).request
      = Request.mk "POST" "http://jks/job/myjob/build" (some ("u", "tok")) := by
  exact ⟨rfl, rfl, rfl⟩

/-- C3: the claim says the boolean returned by triggerJob is true iff the
status is 2xx. The code logs a non-2xx status as failed (line 68) but then
falls through to `return true` (line 73): only a transport error yields
false. This theorem evaluates the code at the failing input, status 404: the
call returns true while logging the failure. -/
theorem C3_non2xx_still_true :
    (triggerJob cfgAnon "myjob" (fun _ => some 404)).success = true ∧
    (triggerJob cfgAnon "myjob" (fun _ => some 404)).logs
      = ["... myjob failed with status code 404"] ∧
    (triggerJob cfgAnon "myjob" (fun _ => none)).success = false := by
  exact ⟨rfl, rfl, rfl⟩

/-- C4, counterexample: arm job J at time 0 (timer id 0, due at 10); at time
10 the callback of timer 0 starts while a new arm installs timer id 1; the
stale callback then runs its cleanup. The claim says the newer entry (J, 1)
survives; in fact the cleanup deletes it, because the callback only checks
presence and never compares timer handles. -/
theorem C4_counterexample :
    lookupTK (createTimer 10 10 "J" (createTimer 10 0 "J" initState)) "J"
      = some 1 ∧
    lookupTK (expiryCallback (GoTimer.mk 0 "J" 10 false) 10
        (createTimer 10 10 "J" (createTimer 10 0 "J" initState))) "J"
      = none := by
  exact ⟨rfl, rfl⟩

/-- C4, amended: the timer-expiry callback for job J deletes the registry
entry for J whenever any entry is present, without comparing the stored
handle to the timer the callback was scheduled for; so in an interleaving
where a newer arm(J) replaced the entry, the stale cleanup removes the newer
entry too. -/
theorem C4_cleanup_deletes_any_entry (s : TPState) (t : GoTimer) (now tid : Nat)
    (h : lookupTK s t.job = some tid) :
    lookupTK (expiryCallback t now s) t.job = none := by
  have h1 : lookupTK
      (TPState.mk s.nextId s.timers s.timeKeeper ((t.job, now) :: s.fired)) t.job
      = some tid := h
  unfold expiryCallback
  simp only [h1]
  exact lookupTK_deleteTK _ _

/-- C4, witness: the amended theorem applied to the state of the
counterexample trace, where the stored handle (id 1) is not the timer (id 0)
whose callback runs. -/
theorem C4_witness :
    lookupTK (expiryCallback (GoTimer.mk 0 "J" 10 false) 10
        (createTimer 10 10 "J" (createTimer 10 0 "J" initState))) "J"
      = none :=
  C4_cleanup_deletes_any_entry
    (createTimer 10 10 "J" (createTimer 10 0 "J" initState))
    (GoTimer.mk 0 "J" 10 false) 10 1 rfl

/-- C5: arming a job at t1 and again at t2, with t2 before the first quiet
period elapses, yields exactly one fire, at t2 + quiet-period: the first
timer is stopped (cancelled) and the full delay restarts from the second arm. -/
theorem C5_debounce_restarts (q : Nat) (j : String) (t1 t2 : Nat)
    (h1 : t1 ≤ t2) (h2 : t2 < t1 + q) :
    (runArmsFrom q j [t1, t2] initState).fired = [(j, t2 + q)] ∧
    (runArmsFrom q j [t1, t2] initState).timers
      = [GoTimer.mk 1 j (t2 + q) false, GoTimer.mk 0 j (t1 + q) true] := by
  have hle : ¬ (t1 + q ≤ t2) := by omega
  simp [runArmsFrom, pendingOf, lookupTK, createTimer, expiryCallback,
    stopTimer, deleteTK, initState, List.find?, hle]

/-- C5, witness: quiet period 10, arms at times 0 and 5: one fire, at 15. -/
theorem C5_witness :
    (runArmsFrom 10 "jobA" [0, 5] initState).fired = [("jobA", 15)] ∧
    (runArmsFrom 10 "jobA" [0, 5] initState).timers
      = [GoTimer.mk 1 "jobA" 15 false, GoTimer.mk 0 "jobA" 10 true] :=
  C5_debounce_restarts 10 "jobA" 0 5 (by omega) (by omega)

/-- C6, counterexample: the mapping source with the single row
(`a|b`; `c`; `j1`) loads fine in non-file-matching mode, and the lookup key
built from the pair (`a`, `b|c`) — a pair no row has as its first two
fields, so the claim demands the empty list — returns `["j1"]`, because both
collapse to the key `a|b|c`. -/
theorem C6_counterexample :
    ParseMappingFile [["a|b", "c", "j1"]] false
      = ParseOutcome.ok (triggerMapping.mk [("a|b|c", ["j1"])]) ∧
    lookupMapping [("a|b|c", ["j1"])] (BuildMappingKey ["a", "b|c"]) = ["j1"] ∧
    specLookup "a" "b|c" [["a|b", "c", "j1"]] = [] := by
  exact ⟨rfl, rfl, rfl⟩

/-- C6, amended: for every mapping source in non-file-matching mode that
loads successfully and whose repository and branch fields are free of the
pipe separator, looking up the key built from a separator-free (repository,
branch) pair returns exactly the job names (third field) of the rows whose
first two fields equal that pair, in source order, duplicates preserved, and
the empty list when no row matches. -/
theorem C6_lookup_matches_rows (records : List (List String))
    (tm : triggerMapping) (r b : String)
    (hload : ParseMappingFile records false = ParseOutcome.ok tm)
    (hrecs : ∀ rec ∈ records, pipeFree (rec.getD 0 "") ∧ pipeFree (rec.getD 1 ""))
    (hr : pipeFree r) (hb : pipeFree b) :
    lookupMapping tm.mapping (BuildMappingKey [r, b]) = specLookup r b records := by
  have h1 := parseLoop_lookup records none [] tm (BuildMappingKey [r, b]) hload
  rw [h1]
  have h0 : lookupMapping [] (BuildMappingKey [r, b]) = [] := rfl
  rw [h0, List.nil_append, keyJobs_eq_specLookup r b records hrecs hr hb]

/-- C6, witness: the spec scenario source loaded and queried at
(repoA, main), where the amended theorem applies and both sides evaluate to
`["buildA"]`. -/
theorem C6_witness :
    lookupMapping
      [("repoA|main", ["buildA"]), ("repoA|dev", ["buildDev"]),
        ("repoB|main", ["buildA"])]
      (BuildMappingKey ["repoA", "main"])
      = specLookup "repoA" "main"
          [["repoA", "main", "buildA"], ["repoA", "dev", "buildDev"],
            ["repoB", "main", "buildA"]] :=
  C6_lookup_matches_rows
    [["repoA", "main", "buildA"], ["repoA", "dev", "buildDev"],
      ["repoB", "main", "buildA"]]
    (triggerMapping.mk
      [("repoA|main", ["buildA"]), ("repoA|dev", ["buildDev"]),
        ("repoB|main", ["buildA"])])
    "repoA" "main" (by decide) (by decide) (by decide) (by decide)

/-- C7: in file-matching mode, a source containing any record whose field
count is not exactly 4 makes ParseMappingFile fail the whole load with an
error value — the result is an error, never a table built from the preceding
well-formed rows. -/
theorem C7_filematch_bad_record_fails (records : List (List String))
    (h : ∃ rec ∈ records, rec.length ≠ 4) :
    ∃ msg, ParseMappingFile records true = ParseOutcome.err msg :=
  parseLoop_filematch_err records none [] h

/-- C7, witness: a single 3-field record in file-matching mode fails the load. -/
theorem C7_witness :
    ∃ msg, ParseMappingFile [["a", "b", "c"]] true = ParseOutcome.err msg :=
  C7_filematch_bad_record_fails [["a", "b", "c"]] (by decide)

/-- C8: BuildMappingKey joins its parts with the pipe character —
`["a","b"]` gives `"a|b"` and `["a","b","c"]` gives `"a|b|c"` — and on lists
of equal length whose elements are free of the separator, equal keys imply
equal lists. -/
theorem C8_buildKey_join_injective :
    BuildMappingKey ["a", "b"] = "a|b" ∧
    BuildMappingKey ["a", "b", "c"] = "a|b|c" ∧
    ∀ (xs ys : List String), xs.length = ys.length →
      (∀ s ∈ xs, pipeFree s) → (∀ s ∈ ys, pipeFree s) →
      BuildMappingKey xs = BuildMappingKey ys → xs = ys :=
  ⟨rfl, rfl, fun xs ys hlen hx hy h => buildKey_inj xs ys hlen hx hy h⟩

/-- C9: `main` calls `run` without ever invoking `parseFlags`, so the
configuration globals keep their zero values; for every argument vector and
every file system, `run` stops at the first check with the error
"No JENKINS_URL defined" — the mapping is never loaded, nothing is served,
and the process exits non-zero. -/
theorem C9_main_always_fails (args : List String)
    (fs : String → Option (List (List String))) :
    mainRun args fs = RunOutcome.fail "No JENKINS_URL defined" ∧
    mainExitCode args fs = 1 :=
  ⟨rfl, rfl⟩

/-- C10: in non-file-matching mode the parse loop reads `record[2]` without a
length check, so a well-formed two-field source makes the load panic with an
index-out-of-range runtime error — a panic, not a returned error value, so
the load is not total over textual sources. -/
theorem C10_short_record_panics :
    ParseMappingFile [["a", "b"]] false
      = ParseOutcome.panicked "index out of range" := by
  rfl


end TriggerProxy
